import Mathlib

/-!
Shallow embedding of the course navigation and progress-tracking engine of
the `react-on-steroids` repository.

Sources embedded:
* `src/lib/course-data.ts` — the static catalog (`courseParts`) and the
  lookup / ordering functions (`getAllChapters`, `getChapterBySlug`,
  `getPartByNumber`, `getNextChapter`, `getPreviousChapter`).
* `src/app/course/[part]/[slug]/page.tsx` — `generateStaticParams` and
  `ChapterPage` (the route handler).
* the `ChapterContent` component (embedded in `src/README.md`) —
  `toggleCompleted` and the mount-time completion check.
* `src/components/course-sidebar.tsx` — `loadCompleted` and the storage
  event subscription.

The browser built-ins the code relies on (`JSON.parse`, `JSON.stringify`,
`new Set(...)`) are modelled executably below: a recursive-descent JSON
parser over character lists with a fuel bound, a serializer, and a JS `Set`
as an insertion-ordered duplicate-free list.
-/

namespace ReactOnSteroids

/-- Chapter record, from the `Chapter` interface of `src/lib/course-data.ts`. -/
structure Chapter where
  id : String
  number : Nat
  title : String
  slug : String
  path : String
  isNew : Option Bool := none
deriving DecidableEq

/-- Status union type of a course part (`'completed' | 'in-progress' | 'coming-soon'`). -/
inductive PartStatus where
  | completed
  | inProgress
  | comingSoon
deriving DecidableEq

/-- CoursePart record, from the `CoursePart` interface of `src/lib/course-data.ts`. -/
structure CoursePart where
  id : String
  number : Nat
  title : String
  description : String
  chapters : List Chapter
  status : PartStatus
deriving DecidableEq

/-- The static catalog literal `courseParts` of `src/lib/course-data.ts`,
transcribed field by field. -/
def courseParts : List CoursePart := [
  { id := "part1", number := 1, title := "Foundations",
    description := "Build your foundation and understand the basics",
    status := .completed,
    chapters := [
      { id := "ch01", number := 1, title := "What is React Native & How It Works",
        slug := "what-is-react-native",
        path := "/course_data/Part1-Foundations/Chapter01-What-Is-React-Native/README.md" },
      { id := "ch02", number := 2, title := "Environment Setup & Your First App",
        slug := "environment-setup",
        path := "/course_data/Part1-Foundations/Chapter02-Environment-Setup/README.md" },
      { id := "ch03", number := 3, title := "Understanding Components - The Building Blocks",
        slug := "understanding-components",
        path := "/course_data/Part1-Foundations/Chapter03-Understanding-Components/README.md" },
      { id := "ch04", number := 4, title := "Styling Your App",
        slug := "styling-your-app",
        path := "/course_data/Part1-Foundations/Chapter04-Styling-Your-App/README.md" },
      { id := "ch05", number := 5, title := "Handling User Interaction",
        slug := "handling-user-interaction",
        path := "/course_data/Part1-Foundations/Chapter05-Handling-User-Interaction/README.md" }
    ] },
  { id := "part2", number := 2, title := "Core Concepts",
    description := "Master the fundamentals that power every app",
    status := .completed,
    chapters := [
      { id := "ch06", number := 6, title := "Props - Passing Data Between Components",
        slug := "props",
        path := "/course_data/Part2-Core-Concepts/Chapter06-Props/README.md" },
      { id := "ch07", number := 7, title := "State - Making Components Dynamic",
        slug := "state",
        path := "/course_data/Part2-Core-Concepts/Chapter07-State/README.md" },
      { id := "ch08", number := 8, title := "Lists & Keys - Displaying Dynamic Data",
        slug := "lists-and-keys",
        path := "/course_data/Part2-Core-Concepts/Chapter08-Lists-And-Keys/README.md" },
      { id := "ch09", number := 9, title := "useEffect - Side Effects & Lifecycle",
        slug := "use-effect",
        path := "/course_data/Part2-Core-Concepts/Chapter09-UseEffect/README.md" },
      { id := "ch10", number := 10, title := "Navigation - Moving Between Screens",
        slug := "navigation",
        path := "/course_data/Part2-Core-Concepts/Chapter10-Navigation/README.md" },
      { id := "ch11", number := 11, title := "Context API & Global State",
        slug := "context-api",
        path := "/course_data/Part2-Core-Concepts/Chapter11-ContextAPI/README.md" }
    ] },
  { id := "part3", number := 3, title := "Advanced Topics",
    description := "Professional patterns, native integration, and production practices",
    status := .completed,
    chapters := [
      { id := "ch12", number := 12, title := "Architecture Patterns",
        slug := "architecture-patterns",
        path := "/course_data/Part3-Advanced-Topics/Chapter12-Architecture-Patterns/README.md" },
      { id := "ch13", number := 13, title := "Advanced State Management (Zustand/Redux)",
        slug := "advanced-state-management",
        path := "/course_data/Part3-Advanced-Topics/Chapter13-Advanced-State-Management/README.md" },
      { id := "ch14", number := 14, title := "Async Operations & Data Fetching (React Query)",
        slug := "async-operations",
        path := "/course_data/Part3-Advanced-Topics/Chapter14-Async-Operations-Data-Fetching/README.md" },
      { id := "ch15", number := 15, title := "Native Modules & Platform APIs",
        slug := "native-modules",
        path := "/course_data/Part3-Advanced-Topics/Chapter15-Native-Modules-Platform-APIs/README.md" },
      { id := "ch16", number := 16, title := "Testing Your React Native App",
        slug := "testing",
        path := "/course_data/Part3-Advanced-Topics/Chapter16-Testing/README.md" },
      { id := "ch17", number := 17, title := "Performance & Production Ready",
        slug := "performance-production",
        path := "/course_data/Part3-Advanced-Topics/Chapter17-Performance-Production/README.md" }
    ] }
]

/-- `getAllChapters` generalized over the catalog it reads (the source closes
over the module-level `courseParts`): `courseParts.flatMap(part => part.chapters)`. -/
def getAllChaptersIn (parts : List CoursePart) : List Chapter :=
  parts.flatMap (fun part => part.chapters)

/-- `getAllChapters()` of `src/lib/course-data.ts`. -/
def getAllChapters : List Chapter :=
  getAllChaptersIn courseParts

/-- `getChapterBySlug` generalized over the catalog:
`getAllChapters().find(chapter => chapter.slug === slug)`. -/
def getChapterBySlugIn (parts : List CoursePart) (slug : String) : Option Chapter :=
  (getAllChaptersIn parts).find? (fun chapter => decide (chapter.slug = slug))

/-- `getChapterBySlug(slug)` of `src/lib/course-data.ts`. -/
def getChapterBySlug (slug : String) : Option Chapter :=
  getChapterBySlugIn courseParts slug

/-- `getPartByNumber(partNumber)` of `src/lib/course-data.ts`. -/
def getPartByNumber (partNumber : Nat) : Option CoursePart :=
  courseParts.find? (fun part => decide (part.number = partNumber))

/-- JavaScript `Array.prototype.findIndex` (index-accumulating loop); `none`
models the `-1` result. -/
def findIndexFrom (p : Chapter → Bool) (i : Nat) : List Chapter → Option Nat
  | [] => none
  | c :: cs => if p c then some i else findIndexFrom p (i + 1) cs

/-- `chapters.findIndex(ch => ch.slug === currentSlug)`. -/
def findIndexSlug (chapters : List Chapter) (currentSlug : String) : Option Nat :=
  findIndexFrom (fun ch => decide (ch.slug = currentSlug)) 0 chapters

/-- `getNextChapter(currentSlug)` of `src/lib/course-data.ts`:
`currentIndex >= 0 && currentIndex < chapters.length - 1 ? chapters[currentIndex + 1] : undefined`. -/
def getNextChapter (currentSlug : String) : Option Chapter :=
  let chapters := getAllChapters
  match findIndexSlug chapters currentSlug with
  | some i => if i + 1 < chapters.length then chapters.get? (i + 1) else none
  | none => none

/-- `getPreviousChapter(currentSlug)` of `src/lib/course-data.ts`:
`currentIndex > 0 ? chapters[currentIndex - 1] : undefined`. -/
def getPreviousChapter (currentSlug : String) : Option Chapter :=
  let chapters := getAllChapters
  match findIndexSlug chapters currentSlug with
  | some i => if 0 < i then chapters.get? (i - 1) else none
  | none => none

/-- Modelled from the spec: `sectionOf(unit)` (the owning Section). The code
has no standalone function; pages pair each chapter with its part while
iterating `courseParts`, which resolves to the first (and, ids being unique,
the only) part whose `chapters` array holds the chapter. -/
def sectionOf (c : Chapter) : Option CoursePart :=
  courseParts.find? (fun part => decide (c ∈ part.chapters))

/-- Number of the owning part of a chapter (`0` for a chapter outside the catalog). -/
def sectionNumberOf (c : Chapter) : Nat :=
  match sectionOf c with
  | some part => part.number
  | none => 0

/-- `generateStaticParams` of `src/app/course/[part]/[slug]/page.tsx`:
the part segment is derived from the chapter number by fixed thresholds. -/
def generateStaticParams : List (String × String) :=
  getAllChapters.map (fun chapter =>
    (if chapter.number ≤ 6 then "part1" else if chapter.number ≤ 12 then "part2" else "part3",
     chapter.slug))

/-- What a chapter route renders: the not-found card or a chapter's content. -/
inductive PageView where
  | notFoundView
  | chapterView (c : Chapter)
deriving DecidableEq

/-- `ChapterPage` of `src/app/course/[part]/[slug]/page.tsx` composed with the
`if (!chapter)` guard of `ChapterContent`: the `part` route segment is read
but never validated — only the slug decides between the chapter view and the
not-found card. -/
def chapterPage (part slug : String) : PageView :=
  match getChapterBySlug slug with
  | none => PageView.notFoundView
  | some c => PageView.chapterView c

/-! JSON values, a model of the browser's `JSON.parse` / `JSON.stringify`.
Numbers are modelled as integers (no claim touches fractional stored
values), escapes cover the standard single-character forms and `\uXXXX`. -/

/-- JSON value tree produced by `JSON.parse`. -/
inductive Json where
  | null
  | bool (b : Bool)
  | num (n : Int)
  | str (s : String)
  | arr (elems : List Json)
  | obj (fields : List (String × Json))

mutual

/-- Structural decidable equality for `Json` (the automatic derivation does
not handle the nested lists). -/
def jsonDecEq : (a b : Json) → Decidable (a = b)
  | Json.null, Json.null => isTrue rfl
  | Json.null, Json.bool _ => isFalse (fun h => Json.noConfusion h)
  | Json.null, Json.num _ => isFalse (fun h => Json.noConfusion h)
  | Json.null, Json.str _ => isFalse (fun h => Json.noConfusion h)
  | Json.null, Json.arr _ => isFalse (fun h => Json.noConfusion h)
  | Json.null, Json.obj _ => isFalse (fun h => Json.noConfusion h)
  | Json.bool _, Json.null => isFalse (fun h => Json.noConfusion h)
  | Json.bool x, Json.bool y =>
    if h : x = y then isTrue (by rw [h]) else isFalse (by intro hh; cases hh; exact h rfl)
  | Json.bool _, Json.num _ => isFalse (fun h => Json.noConfusion h)
  | Json.bool _, Json.str _ => isFalse (fun h => Json.noConfusion h)
  | Json.bool _, Json.arr _ => isFalse (fun h => Json.noConfusion h)
  | Json.bool _, Json.obj _ => isFalse (fun h => Json.noConfusion h)
  | Json.num _, Json.null => isFalse (fun h => Json.noConfusion h)
  | Json.num _, Json.bool _ => isFalse (fun h => Json.noConfusion h)
  | Json.num x, Json.num y =>
    if h : x = y then isTrue (by rw [h]) else isFalse (by intro hh; cases hh; exact h rfl)
  | Json.num _, Json.str _ => isFalse (fun h => Json.noConfusion h)
  | Json.num _, Json.arr _ => isFalse (fun h => Json.noConfusion h)
  | Json.num _, Json.obj _ => isFalse (fun h => Json.noConfusion h)
  | Json.str _, Json.null => isFalse (fun h => Json.noConfusion h)
  | Json.str _, Json.bool _ => isFalse (fun h => Json.noConfusion h)
  | Json.str _, Json.num _ => isFalse (fun h => Json.noConfusion h)
  | Json.str x, Json.str y =>
    if h : x = y then isTrue (by rw [h]) else isFalse (by intro hh; cases hh; exact h rfl)
  | Json.str _, Json.arr _ => isFalse (fun h => Json.noConfusion h)
  | Json.str _, Json.obj _ => isFalse (fun h => Json.noConfusion h)
  | Json.arr _, Json.null => isFalse (fun h => Json.noConfusion h)
  | Json.arr _, Json.bool _ => isFalse (fun h => Json.noConfusion h)
  | Json.arr _, Json.num _ => isFalse (fun h => Json.noConfusion h)
  | Json.arr _, Json.str _ => isFalse (fun h => Json.noConfusion h)
  | Json.arr xs, Json.arr ys =>
    match jsonDecEqList xs ys with
    | isTrue h => isTrue (by rw [h])
    | isFalse h => isFalse (by intro hh; cases hh; exact h rfl)
  | Json.arr _, Json.obj _ => isFalse (fun h => Json.noConfusion h)
  | Json.obj _, Json.null => isFalse (fun h => Json.noConfusion h)
  | Json.obj _, Json.bool _ => isFalse (fun h => Json.noConfusion h)
  | Json.obj _, Json.num _ => isFalse (fun h => Json.noConfusion h)
  | Json.obj _, Json.str _ => isFalse (fun h => Json.noConfusion h)
  | Json.obj _, Json.arr _ => isFalse (fun h => Json.noConfusion h)
  | Json.obj xs, Json.obj ys =>
    match jsonDecEqFields xs ys with
    | isTrue h => isTrue (by rw [h])
    | isFalse h => isFalse (by intro hh; cases hh; exact h rfl)

/-- Decidable equality for lists of JSON values. -/
def jsonDecEqList : (xs ys : List Json) → Decidable (xs = ys)
  | [], [] => isTrue rfl
  | [], _ :: _ => isFalse (fun h => List.noConfusion h)
  | _ :: _, [] => isFalse (fun h => List.noConfusion h)
  | x :: xs, y :: ys =>
    match jsonDecEq x y with
    | isFalse h1 => isFalse (by intro hh; injection hh with e1 e2; exact h1 e1)
    | isTrue h1 =>
      match jsonDecEqList xs ys with
      | isTrue h2 => isTrue (by rw [h1, h2])
      | isFalse h2 => isFalse (by intro hh; injection hh with e1 e2; exact h2 e2)

/-- Decidable equality for lists of JSON object members. -/
def jsonDecEqFields : (xs ys : List (String × Json)) → Decidable (xs = ys)
  | [], [] => isTrue rfl
  | [], _ :: _ => isFalse (fun h => List.noConfusion h)
  | _ :: _, [] => isFalse (fun h => List.noConfusion h)
  | (k1, v1) :: xs, (k2, v2) :: ys =>
    if hk : k1 = k2 then
      match jsonDecEq v1 v2 with
      | isFalse h1 =>
        isFalse (by
          intro hh
          injection hh with e1 e2
          injection e1 with ek ev
          exact h1 ev)
      | isTrue h1 =>
        match jsonDecEqFields xs ys with
        | isTrue h2 => isTrue (by rw [hk, h1, h2])
        | isFalse h2 => isFalse (by intro hh; injection hh with e1 e2; exact h2 e2)
    else
      isFalse (by
        intro hh
        injection hh with e1 e2
        injection e1 with ek ev
        exact hk ek)

end

instance : DecidableEq Json := jsonDecEq

instance {ε α : Type} [DecidableEq ε] [DecidableEq α] : DecidableEq (Except ε α) := fun x y =>
  match x, y with
  | Except.ok a, Except.ok b =>
    if h : a = b then isTrue (by rw [h]) else isFalse (by intro hh; cases hh; exact h rfl)
  | Except.error a, Except.error b =>
    if h : a = b then isTrue (by rw [h]) else isFalse (by intro hh; cases hh; exact h rfl)
  | Except.ok _, Except.error _ => isFalse (fun h => Except.noConfusion h)
  | Except.error _, Except.ok _ => isFalse (fun h => Except.noConfusion h)

/-- JSON insignificant whitespace. -/
def isWs (c : Char) : Bool :=
  c = ' ' ∨ c = '\t' ∨ c = '\n' ∨ c = '\r'

/-- Drop leading whitespace. -/
def skipWs : List Char → List Char
  | [] => []
  | c :: cs => if isWs c then skipWs cs else c :: cs

/-- Value of a hexadecimal digit. -/
def hexVal (c : Char) : Option Nat :=
  if '0' ≤ c ∧ c ≤ '9' then some (c.toNat - 48)
  else if 'a' ≤ c ∧ c ≤ 'f' then some (c.toNat - 87)
  else if 'A' ≤ c ∧ c ≤ 'F' then some (c.toNat - 55)
  else none

/-- Character named by a single-character escape sequence. -/
def unescape (c : Char) : Option Char :=
  if c = '"' then some '"'
  else if c = '\\' then some '\\'
  else if c = '/' then some '/'
  else if c = 'b' then some '\x08'
  else if c = 'f' then some '\x0c'
  else if c = 'n' then some '\n'
  else if c = 'r' then some '\r'
  else if c = 't' then some '\t'
  else none

/-- Body of a JSON string after its opening quote: the decoded characters and
the input after the closing quote. -/
def parseStringBody : List Char → Option (List Char × List Char)
  | [] => none
  | c :: rest =>
    if c = '"' then some ([], rest)
    else if c = '\\' then
      match rest with
      | [] => none
      | e :: rest' =>
        if e = 'u' then
          match rest' with
          | h1 :: h2 :: h3 :: h4 :: rest'' =>
            match hexVal h1, hexVal h2, hexVal h3, hexVal h4 with
            | some a, some b, some x, some d =>
              match parseStringBody rest'' with
              | some (body, r) =>
                some (Char.ofNat (((a * 16 + b) * 16 + x) * 16 + d) :: body, r)
              | none => none
            | _, _, _, _ => none
          | _ => none
        else
          match unescape e with
          | some ch =>
            match parseStringBody rest' with
            | some (body, r) => some (ch :: body, r)
            | none => none
          | none => none
    else
      match parseStringBody rest with
      | some (body, r) => some (c :: body, r)
      | none => none

/-- Accumulate a run of decimal digits. -/
def parseDigitsAux : List Char → Nat → Nat × List Char
  | [], acc => (acc, [])
  | c :: cs, acc =>
    if c.isDigit then parseDigitsAux cs (acc * 10 + (c.toNat - 48)) else (acc, c :: cs)

/-- JSON number (integral part only; a fractional or exponent suffix is left
in the remainder and rejected by the trailing-input check). -/
def parseNumber : List Char → Option (Json × List Char)
  | [] => none
  | c :: cs =>
    if c = '-' then
      match cs with
      | [] => none
      | d :: ds =>
        if d.isDigit then
          let p := parseDigitsAux ds (d.toNat - 48)
          some (Json.num (-(p.1 : Int)), p.2)
        else none
    else if c.isDigit then
      let p := parseDigitsAux cs (c.toNat - 48)
      some (Json.num (p.1 : Int), p.2)
    else none

mutual

/-- Recursive-descent JSON value parser; `fuel` bounds the recursion. -/
def parseVal : Nat → List Char → Option (Json × List Char)
  | 0, _ => none
  | fuel + 1, cs =>
    match skipWs cs with
    | [] => none
    | c :: cs' =>
    if c = '"' then
      match parseStringBody cs' with
      | some (body, rest) => some (Json.str (String.mk body), rest)
      | none => none
    else if c = '[' then
      match skipWs cs' with
      | [] => none
      | d :: rest =>
        if d = ']' then some (Json.arr [], rest)
        else
          match parseElems fuel (d :: rest) with
          | some (vs, rest') => some (Json.arr vs, rest')
          | none => none
    else if c = '\x7b' then
      match skipWs cs' with
      | [] => none
      | d :: rest =>
        if d = '\x7d' then some (Json.obj [], rest)
        else
          match parseFields fuel (d :: rest) with
          | some (fs, rest') => some (Json.obj fs, rest')
          | none => none
    else if c = 't' then
      match cs' with
      | c1 :: c2 :: c3 :: rest =>
        if c1 = 'r' ∧ c2 = 'u' ∧ c3 = 'e' then some (Json.bool true, rest) else none
      | _ => none
    else if c = 'f' then
      match cs' with
      | c1 :: c2 :: c3 :: c4 :: rest =>
        if c1 = 'a' ∧ c2 = 'l' ∧ c3 = 's' ∧ c4 = 'e' then some (Json.bool false, rest) else none
      | _ => none
    else if c = 'n' then
      match cs' with
      | c1 :: c2 :: c3 :: rest =>
        if c1 = 'u' ∧ c2 = 'l' ∧ c3 = 'l' then some (Json.null, rest) else none
      | _ => none
    else parseNumber (c :: cs')

/-- Comma-separated array elements up to the closing bracket. -/
def parseElems : Nat → List Char → Option (List Json × List Char)
  | 0, _ => none
  | fuel + 1, cs =>
    match parseVal fuel cs with
    | none => none
    | some (v, rest) =>
      match skipWs rest with
      | [] => none
      | d :: rest' =>
        if d = ',' then
          match parseElems fuel rest' with
          | some (vs, r) => some (v :: vs, r)
          | none => none
        else if d = ']' then some ([v], rest')
        else none

/-- Comma-separated object members up to the closing brace. -/
def parseFields : Nat → List Char → Option (List (String × Json) × List Char)
  | 0, _ => none
  | fuel + 1, cs =>
    match skipWs cs with
    | [] => none
    | c :: cs' =>
      if c = '"' then
        match parseStringBody cs' with
        | none => none
        | some (key, rest) =>
          match skipWs rest with
          | [] => none
          | d :: rest' =>
            if d = ':' then
              match parseVal fuel rest' with
              | none => none
              | some (v, rest'') =>
                match skipWs rest'' with
                | [] => none
                | e :: r3 =>
                  if e = ',' then
                    match parseFields fuel r3 with
                    | some (fs, r4) => some ((String.mk key, v) :: fs, r4)
                    | none => none
                  else if e = '\x7d' then some ([(String.mk key, v)], r3)
                  else none
            else none
      else none

end

/-- Model of `JSON.parse`: parse one value and require only whitespace after
it; `none` models the thrown `SyntaxError`. -/
def jsonParse (s : String) : Option Json :=
  match parseVal (s.data.length + 1) s.data with
  | some (v, rest) =>
    match skipWs rest with
    | [] => some v
    | _ => none
  | none => none

/-- Escape of one control character, as `JSON.stringify` emits it. -/
def escCtrl (c : Char) : List Char :=
  if c = '\x08' then ['\\', 'b']
  else if c = '\t' then ['\\', 't']
  else if c = '\n' then ['\\', 'n']
  else if c = '\x0c' then ['\\', 'f']
  else if c = '\r' then ['\\', 'r']
  else
    let lo := c.toNat % 16
    let hi := c.toNat / 16 % 16
    ['\\', 'u', '0', '0', (Nat.digitChar hi), (Nat.digitChar lo)]

/-- String-content escaping of `JSON.stringify`. -/
def escChars : List Char → List Char
  | [] => []
  | c :: cs =>
    if c = '"' then '\\' :: '"' :: escChars cs
    else if c = '\\' then '\\' :: '\\' :: escChars cs
    else if c.toNat < 32 then escCtrl c ++ escChars cs
    else c :: escChars cs

/-- Quoted, escaped JSON string literal. -/
def quoteChars (s : List Char) : List Char :=
  '"' :: escChars s ++ ['"']

mutual

/-- Characters emitted by `JSON.stringify` for a value. -/
def stringifyChars : Json → List Char
  | Json.null => ['n', 'u', 'l', 'l']
  | Json.bool true => ['t', 'r', 'u', 'e']
  | Json.bool false => ['f', 'a', 'l', 's', 'e']
  | Json.num n => (toString n).data
  | Json.str s => quoteChars s.data
  | Json.arr xs => '[' :: stringifyArr xs ++ [']']
  | Json.obj fs => '\x7b' :: stringifyObj fs ++ ['\x7d']

/-- Comma-joined stringified array elements. -/
def stringifyArr : List Json → List Char
  | [] => []
  | [x] => stringifyChars x
  | x :: y :: xs => stringifyChars x ++ ',' :: stringifyArr (y :: xs)

/-- Comma-joined stringified object members. -/
def stringifyObj : List (String × Json) → List Char
  | [] => []
  | [(k, v)] => quoteChars k.data ++ ':' :: stringifyChars v
  | (k, v) :: f :: fs => quoteChars k.data ++ ':' :: stringifyChars v ++ ',' :: stringifyObj (f :: fs)

end

/-- Model of `JSON.stringify`. -/
def jsonStringify (j : Json) : String :=
  String.mk (stringifyChars j)

/-! A JavaScript `Set` as an insertion-ordered list without duplicates.
Membership uses SameValueZero: primitives compare by value; arrays and
objects compare by reference, and every array or object reachable here comes
fresh out of `JSON.parse`, so two of them are never the same reference. -/

/-- SameValueZero over values produced by `JSON.parse`. -/
def sameValueZero : Json → Json → Bool
  | Json.null, Json.null => true
  | Json.bool a, Json.bool b => decide (a = b)
  | Json.num a, Json.num b => decide (a = b)
  | Json.str a, Json.str b => decide (a = b)
  | _, _ => false

/-- Set membership test under SameValueZero. -/
def setMem (l : List Json) (v : Json) : Bool :=
  l.any (fun x => sameValueZero x v)

/-- `Set.prototype.add`: append unless already a member. -/
def setAdd (l : List Json) (v : Json) : List Json :=
  if setMem l v then l else l ++ [v]

/-- `Set.prototype.delete`: remove the member, keeping order of the rest. -/
def setDelete (l : List Json) (v : Json) : List Json :=
  l.filter (fun x => !sameValueZero x v)

/-- `Set.prototype.has`. -/
def setHas (l : List Json) (v : Json) : Bool :=
  setMem l v

/-- Values an iterable JSON value yields to the `Set` constructor: arrays
yield their elements, strings their characters; `null` (like `undefined`)
gives an empty set; booleans, numbers and plain objects are not iterable
(`TypeError`). -/
def jsIterate : Json → Option (List Json)
  | Json.arr xs => some xs
  | Json.str s => some (s.data.map (fun c => Json.str (String.mk [c])))
  | Json.null => some []
  | _ => none

/-- `new Set(j)` for a parsed JSON value `j`: iterate, deduplicating in
insertion order. -/
def newSetOfJson (j : Json) : Option (List Json) :=
  (jsIterate j).map (fun xs => xs.foldl setAdd [])

/-- The ways reconstructing the completion set can throw. -/
inductive LoadErr where
  | parseError
  | notIterable
deriving DecidableEq

/-- Shared load path of `loadCompleted` (`src/components/course-sidebar.tsx`)
and of `toggleCompleted` / the mount effect of `ChapterContent`:
`saved ? new Set(JSON.parse(saved)) : new Set()`. A missing key — and, by JS
truthiness, an empty string — yields the empty set; otherwise `JSON.parse`
may throw (`parseError`) and the `Set` constructor may throw
(`notIterable`). There is no `try`/`catch` around either call site. -/
def loadCompleted (saved : Option String) : Except LoadErr (List Json) :=
  match saved with
  | none => Except.ok []
  | some s =>
    if s = "" then Except.ok []
    else
      match jsonParse s with
      | none => Except.error LoadErr.parseError
      | some j =>
        match newSetOfJson j with
        | none => Except.error LoadErr.notIterable
        | some set => Except.ok set

/-- Outcome of `toggleCompleted`: the string written back under
`completedChapters`, the new cached `isCompleted` flag, and whether the
`storage` event was dispatched. -/
structure ToggleResult where
  stored : String
  completedFlag : Bool
  eventDispatched : Bool
deriving DecidableEq

/-- The set `toggleCompleted` persists, given the freshly loaded set and the
view's cached `isCompleted` flag: `delete` when the flag is set, `add`
otherwise. -/
def toggleSet (completed : List Json) (isCompleted : Bool) (id : String) : List Json :=
  if isCompleted then setDelete completed (Json.str id)
  else setAdd completed (Json.str id)

/-- `toggleCompleted` of the `ChapterContent` component (`src/README.md`):
re-read the stored record, branch on the cached `isCompleted` flag (not on
the record's own membership), persist `JSON.stringify([...completed])`,
negate the flag, and dispatch a `storage` event. -/
def toggleCompleted (saved : Option String) (isCompleted : Bool) (id : String) :
    Except LoadErr ToggleResult :=
  match loadCompleted saved with
  | Except.error e => Except.error e
  | Except.ok completed =>
    Except.ok
      { stored := jsonStringify (Json.arr (toggleSet completed isCompleted id)),
        completedFlag := !isCompleted,
        eventDispatched := true }

/-- One toggle as the running application performs it: the view's cached flag
was set by the mount effect from current storage
(`completed.has(chapter.id)`), then `toggleCompleted` runs. Returns the new
stored string. -/
def toggleStep (saved : Option String) (id : String) : Except LoadErr String :=
  match loadCompleted saved with
  | Except.error e => Except.error e
  | Except.ok current =>
    match toggleCompleted saved (setHas current (Json.str id)) id with
    | Except.error e => Except.error e
    | Except.ok r => Except.ok r.stored

/-- A finite sequence of toggles against the shared stored value. -/
def runToggles : List String → Option String → Except LoadErr (Option String)
  | [], saved => Except.ok saved
  | id :: rest, saved =>
    match toggleStep saved id with
    | Except.error e => Except.error e
    | Except.ok s' => runToggles rest (some s')

/-- Pure counterpart of one flag-consistent toggle on the underlying list of
identifier strings. -/
def toggleList (l : List String) (id : String) : List String :=
  if id ∈ l then l.filter (fun x => decide (x ≠ id)) else l ++ [id]

/-- Serialized form of a completion set holding the given identifiers. -/
def encList (l : List String) : String :=
  jsonStringify (Json.arr (l.map Json.str))

/-- Characters `JSON.stringify` never escapes: such strings round-trip
through the serializer and parser unchanged. -/
def SimpleChar (c : Char) : Bool :=
  decide (c ≠ '"' ∧ c ≠ '\\' ∧ 32 ≤ c.toNat)

/-- Strings made of unescaped characters only. -/
def SimpleStr (s : String) : Bool :=
  s.data.all SimpleChar

/-! Two views sharing the one durable store (the cross-view scenario). -/

/-- State of the two-view model: the shared stored value and view B's
in-memory completion set (the sidebar state of the non-originating view). -/
structure TwoViewState where
  store : Option String
  viewB : List Json
deriving DecidableEq

/-- View A toggles a chapter: `toggleCompleted` runs against the shared
store; the write plus the dispatched `storage` event reach view B, whose
subscribed handler (`loadCompleted` of `src/components/course-sidebar.tsx`)
re-reads the record into its state. -/
def toggleInViewA (st : TwoViewState) (flagA : Bool) (id : String) :
    Except LoadErr TwoViewState :=
  match toggleCompleted st.store flagA id with
  | Except.error e => Except.error e
  | Except.ok r =>
    match loadCompleted (some r.stored) with
    | Except.error e => Except.error e
    | Except.ok c => Except.ok { store := some r.stored, viewB := c }

/-- `isChapterCompleted` as view B answers it from its reloaded state. -/
def isCompleteInB (st : TwoViewState) (id : String) : Bool :=
  setHas st.viewB (Json.str id)

/-! A catalog input violating the uniqueness invariants, for probing
construction-time validation. -/

/-- First of two distinct units sharing an identifier and a slug. -/
def dupChapterA : Chapter :=
  { id := "chA", number := 1, title := "A", slug := "dup", path := "/a" }

/-- Second of two distinct units sharing an identifier and a slug. -/
def dupChapterB : Chapter :=
  { id := "chA", number := 2, title := "B", slug := "dup", path := "/b" }

/-- A one-part catalog input whose two units share id `chA` and slug `dup`. -/
def dupParts : List CoursePart :=
  [{ id := "partX", number := 1, title := "X", description := "X",
     chapters := [dupChapterA, dupChapterB], status := .completed }]

/-! ## Helper lemmas -/

/-- A predicate false on every element is found at no index. -/
theorem findIndexFrom_eq_none (p : Chapter → Bool) :
    ∀ (l : List Chapter), (∀ c ∈ l, p c = false) → ∀ i, findIndexFrom p i l = none := by
  intro l
  induction l with
  | nil => intro _ _; rfl
  | cons c cs ih =>
    intro h i
    have hc : p c = false := h c (List.mem_cons_self c cs)
    simp only [findIndexFrom, hc]
    exact ih (fun x hx => h x (List.mem_cons_of_mem c hx)) (i + 1)

/-! ## Claim C1 — corrupt stored completion values -/

/-- Claim C1 counterexample: loading the completion record from the two
corrupt stored values of the claim does not return an empty record — the
`JSON.parse` failure (for `not json`) and the non-iterable `Set` constructor
argument (for the object value) propagate as exceptions, since neither call
site is wrapped in `try`/`catch`. -/
theorem c1_load_corrupt_counterexample :
    loadCompleted (some "not json") = Except.error LoadErr.parseError ∧
    loadCompleted (some "\x7b\"not\":\"an array\"\x7d") = Except.error LoadErr.notIterable := by
  decide

/-- Claim C1 amended: on a missing stored value (or the falsy empty string)
loading yields the empty record, but on a corrupt stored value the exception
propagates to the caller — a string that is not valid JSON throws the parse
error, and a value parsing to a non-iterable (such as an object) throws from
the `Set` constructor — rather than being discarded in favour of an empty
record. -/
theorem c1_load_corrupt_throws :
    (loadCompleted none = Except.ok [] ∧ loadCompleted (some "") = Except.ok []) ∧
    (∀ s : String, s ≠ "" → jsonParse s = none →
      loadCompleted (some s) = Except.error LoadErr.parseError) ∧
    (∀ s : String, ∀ j : Json, s ≠ "" → jsonParse s = some j → newSetOfJson j = none →
      loadCompleted (some s) = Except.error LoadErr.notIterable) := by
  refine ⟨⟨rfl, by decide⟩, ?_, ?_⟩
  · intro s hne hp
    simp only [loadCompleted, if_neg hne, hp]
  · intro s j hne hp hn
    simp only [loadCompleted, if_neg hne, hp, hn]

/-! ## Claim C2 — section/slug mismatch handling -/

/-- Claim C2 counterexample: the routing pair `(part1, props)` names the slug
of a unit owned by section 2, yet the page does not take the not-found path —
it renders the chapter — while an unknown slug does. -/
theorem c2_part_mismatch_counterexample :
    chapterPage "part1" "props" ≠ PageView.notFoundView ∧
    (getChapterBySlug "props").map sectionNumberOf = some 2 ∧
    chapterPage "part1" "does-not-exist" = PageView.notFoundView := by
  decide

/-- Claim C2 amended: the part segment of the route is ignored entirely — the
page takes the not-found path exactly when the slug is unknown, and its
outcome is independent of the supplied section number, so a mismatched
`(sectionNumber, slug)` pair with a known slug renders that slug's chapter. -/
theorem c2_part_segment_ignored :
    (∀ part slug : String,
      chapterPage part slug = PageView.notFoundView ↔ getChapterBySlug slug = none) ∧
    (∀ part part' slug : String, chapterPage part slug = chapterPage part' slug) := by
  constructor
  · intro part slug
    unfold chapterPage
    cases h : getChapterBySlug slug <;> simp
  · intro _ _ _
    rfl

/-! ## Claim C3 — duplicate identifiers and slugs at construction -/

/-- Claim C3 counterexample: a catalog input whose two distinct units share
an identifier and a slug is accepted — there is no construction-time
validation anywhere in `src/lib/course-data.ts` — and lookups answer on it,
resolving the shared slug to the first of the two units. -/
theorem c3_no_fail_fast_counterexample :
    dupChapterA ≠ dupChapterB ∧
    dupChapterA.id = dupChapterB.id ∧
    dupChapterA.slug = dupChapterB.slug ∧
    getChapterBySlugIn dupParts "dup" = some dupChapterA ∧
    dupChapterB ∈ getAllChaptersIn dupParts := by
  decide

/-- Claim C3 amended: catalog construction performs no uniqueness
validation — a catalog input with duplicate identifiers or slugs is accepted,
and slug lookup deterministically answers with the first matching unit in
catalog order (whenever any unit has the slug, the lookup returns some unit
with that slug); the shipped catalog itself happens to contain no duplicate
identifier and no duplicate slug. -/
theorem c3_no_construction_validation :
    ((getAllChapters.map Chapter.id).Nodup ∧ (getAllChapters.map Chapter.slug).Nodup) ∧
    (getChapterBySlugIn dupParts "dup" = some dupChapterA ∧ dupChapterA.slug = "dup" ∧
      dupChapterB.slug = "dup" ∧ dupChapterA ≠ dupChapterB) ∧
    (∀ (parts : List CoursePart) (slug : String), ∀ c ∈ getAllChaptersIn parts, c.slug = slug →
      ∃ c', getChapterBySlugIn parts slug = some c' ∧ c'.slug = slug) := by
  refine ⟨by decide, by decide, ?_⟩
  intro parts slug c hc hslug
  have hex : (getAllChaptersIn parts).find?
      (fun chapter => decide (chapter.slug = slug)) |>.isSome := by
    rw [List.find?_isSome]
    exact ⟨c, hc, by simpa using hslug⟩
  obtain ⟨c', hc'⟩ := Option.isSome_iff_exists.mp hex
  refine ⟨c', hc', ?_⟩
  have := List.find?_some hc'
  simpa using this

/-! ## Claim C10 — static route part segments vs owning parts -/

/-- Claim C10: the statically generated route of each chapter takes its part
segment from the fixed number thresholds (`<= 6`, `<= 12`), and that segment
names the owning part for every chapter except `ch06` (number 6, owned by
part 2, generated under `part1`) and `ch12` (number 12, owned by part 3,
generated under `part2`). -/
theorem c10_static_params_thresholds :
    (∀ c ∈ getAllChapters,
      ((if c.number ≤ 6 then "part1" else if c.number ≤ 12 then "part2" else "part3"),
        c.slug) ∈ generateStaticParams) ∧
    (∀ c ∈ getAllChapters, c.id ≠ "ch06" → c.id ≠ "ch12" →
      ∀ q ∈ generateStaticParams, q.2 = c.slug →
        q.1 = "part" ++ toString (sectionNumberOf c)) ∧
    ((getChapterBySlug "props").map (fun c => (c.id, c.number, sectionNumberOf c)) =
      some ("ch06", 6, 2) ∧
      ("part1", "props") ∈ generateStaticParams ∧
      ∀ q ∈ generateStaticParams, q.2 = "props" → q.1 = "part1") ∧
    ((getChapterBySlug "architecture-patterns").map
        (fun c => (c.id, c.number, sectionNumberOf c)) = some ("ch12", 12, 3) ∧
      ("part2", "architecture-patterns") ∈ generateStaticParams ∧
      ∀ q ∈ generateStaticParams, q.2 = "architecture-patterns" → q.1 = "part2") := by
  decide

/-- SameValueZero is reflexive on strings. -/
theorem sameValueZero_str_refl (s : String) : sameValueZero (Json.str s) (Json.str s) = true := by
  simp [sameValueZero]

/-- Deleting a value leaves a set that no longer has it. -/
theorem setHas_setDelete_self (l : List Json) (v : Json) :
    setHas (setDelete l v) v = false := by
  induction l with
  | nil => rfl
  | cons x xs ih =>
    by_cases h : sameValueZero x v = true
    · simpa [setDelete, List.filter_cons, h] using ih
    · have h' : sameValueZero x v = false := by
        revert h; cases sameValueZero x v <;> simp
      simpa [setDelete, setHas, setMem, List.filter_cons, h'] using ih

/-- Adding a string leaves a set that has it. -/
theorem setHas_setAdd_self (l : List Json) (s : String) :
    setHas (setAdd l (Json.str s)) (Json.str s) = true := by
  unfold setAdd setHas
  by_cases h : setMem l (Json.str s) = true
  · rw [if_pos h]; exact h
  · rw [if_neg h]
    unfold setMem
    rw [List.any_append]
    simp [sameValueZero]

/-- After the toggle branch runs, membership of the toggled identifier equals
the negation of the cached flag the branch was taken on. -/
theorem setHas_toggleSet_self (completed : List Json) (b : Bool) (s : String) :
    setHas (toggleSet completed b s) (Json.str s) = !b := by
  cases b
  · simpa [toggleSet] using setHas_setAdd_self completed s
  · simpa [toggleSet] using setHas_setDelete_self completed (Json.str s)

/-! ## Claim C9 — toggle decides by the cached flag, not stored membership -/

/-- Claim C9: for every stored record that loads to the set `completed` and
every cached flag `b`, `toggleCompleted` persists exactly
`completed` with the unit's id removed when `b` is true and added when `b`
is false — so the persisted membership of the id is always the negation of
the cached flag, regardless of what the stored membership was. -/
theorem c9_toggle_negates_cached_flag :
    ∀ (saved : Option String) (completed : List Json) (b : Bool) (id : String),
      loadCompleted saved = Except.ok completed →
      toggleCompleted saved b id =
        Except.ok { stored := jsonStringify (Json.arr (toggleSet completed b id)),
                    completedFlag := !b,
                    eventDispatched := true } ∧
      setHas (toggleSet completed b id) (Json.str id) = !b := by
  intro saved completed b id h
  refine ⟨?_, setHas_toggleSet_self completed b id⟩
  unfold toggleCompleted
  rw [h]

/-- Claim C9 witness at a concrete input. -/
theorem c9_toggle_negates_cached_flag_witness :
    toggleCompleted none false "ch01" =
      Except.ok { stored := jsonStringify (Json.arr (toggleSet [] false "ch01")),
                  completedFlag := !false,
                  eventDispatched := true } ∧
    setHas (toggleSet [] false "ch01") (Json.str "ch01") = !false :=
  c9_toggle_negates_cached_flag none [] false "ch01" rfl

/-! ## Claim C4 — toggle's flip of membership -/

/-- Claim C4 counterexample: with the stored record `["ch01"]` — in which
`ch01` is present — a toggle of `ch01` whose view carries the cached flag
`false` persists `["ch01"]` unchanged: the membership is not flipped (the
id is not removed although present), because the branch reads the cached
flag rather than the stored membership. -/
theorem c4_toggle_no_flip_counterexample :
    loadCompleted (some "[\"ch01\"]") = Except.ok [Json.str "ch01"] ∧
    setHas [Json.str "ch01"] (Json.str "ch01") = true ∧
    toggleCompleted (some "[\"ch01\"]") false "ch01" =
      Except.ok { stored := "[\"ch01\"]", completedFlag := true, eventDispatched := true } := by
  decide

/-- Claim C4 amended: `toggleCompleted` re-reads the stored record, then
removes the unit's id when the view's cached completed flag is true and adds
it when the flag is false — flipping the stored membership exactly when the
cached flag agrees with it — and the updated record is serialized into the
stored value handed back (persisted synchronously before returning), the
change event is dispatched, and the negated flag is returned for immediate
re-render. -/
theorem c4_toggle_flip_via_cached_flag :
    ∀ (saved : Option String) (completed : List Json) (b : Bool) (id : String),
      loadCompleted saved = Except.ok completed →
      ∃ r : ToggleResult,
        toggleCompleted saved b id = Except.ok r ∧
        r.stored = jsonStringify (Json.arr (toggleSet completed b id)) ∧
        r.completedFlag = !b ∧
        r.eventDispatched = true ∧
        (b = setHas completed (Json.str id) →
          setHas (toggleSet completed b id) (Json.str id) = !setHas completed (Json.str id)) := by
  intro saved completed b id h
  refine ⟨_, by unfold toggleCompleted; rw [h], rfl, rfl, rfl, ?_⟩
  intro hb
  rw [← hb]
  exact setHas_toggleSet_self completed b id

/-- Claim C4 witness at a concrete input. -/
theorem c4_toggle_flip_via_cached_flag_witness :
    ∃ r : ToggleResult,
      toggleCompleted none false "ch02" = Except.ok r ∧
      r.stored = jsonStringify (Json.arr (toggleSet [] false "ch02")) ∧
      r.completedFlag = !false ∧
      r.eventDispatched = true ∧
      (false = setHas [] (Json.str "ch02") →
        setHas (toggleSet [] false "ch02") (Json.str "ch02") = !setHas [] (Json.str "ch02")) :=
  c4_toggle_flip_via_cached_flag none [] false "ch02" rfl

/-! ## Claim C7 — next/previous unit resolution -/

/-- Claim C7: for a slug no unit carries, both neighbour lookups return
`none`; for the slug of the unit at position `i` of the global order,
`getNextChapter` returns exactly the unit at position `i + 1` (so `none` at
the last unit, where no such position exists) and `getPreviousChapter` the
unit at position `i - 1` (so `none` at the first unit). No case crashes —
both functions are total. -/
theorem c7_next_previous_units :
    (∀ slug : String, (∀ c ∈ getAllChapters, c.slug ≠ slug) →
      getNextChapter slug = none ∧ getPreviousChapter slug = none) ∧
    (∀ i ∈ List.range getAllChapters.length,
      (getAllChapters.get? i).bind (fun a => getNextChapter a.slug) =
        getAllChapters.get? (i + 1) ∧
      (getAllChapters.get? i).bind (fun a => getPreviousChapter a.slug) =
        (if i = 0 then none else getAllChapters.get? (i - 1))) := by
  constructor
  · intro slug h
    have hnone : findIndexSlug getAllChapters slug = none := by
      apply findIndexFrom_eq_none
      intro c hc
      simpa using h c hc
    constructor <;> simp [getNextChapter, getPreviousChapter, hnone]
  · decide

/-! ## Claim C8 — allUnits: each unit once, in the global sorted order -/

/-- Claim C8: `getAllChapters` lists every unit of every part, contains no
unit twice, and is strictly increasing in the lexicographic key (owning part
number, chapter number) — that is, it equals the global order obtained by
sorting primarily by section sequence and secondarily by unit sequence.
(Purity and determinism are inherent: it is a closed function of the static
catalog.) -/
theorem c8_all_units_global_order :
    getAllChapters.Nodup ∧
    List.Pairwise (fun a b => sectionNumberOf a < sectionNumberOf b ∨
      (sectionNumberOf a = sectionNumberOf b ∧ a.number < b.number)) getAllChapters ∧
    (∀ p ∈ courseParts, ∀ c ∈ p.chapters, c ∈ getAllChapters) ∧
    (∀ c ∈ getAllChapters, ∃ p ∈ courseParts, c ∈ p.chapters) := by
  refine ⟨by decide, by decide, by decide, by decide⟩

/-! ## Serializer/parser round trip on completion records -/

/-- Rebuilding a string from its characters is the identity. -/
theorem stringMk_data (s : String) : String.mk s.data = s := rfl

/-- Whitespace skipping leaves a non-whitespace head alone. -/
theorem skipWs_cons_not (c : Char) (cs : List Char) (h : isWs c = false) :
    skipWs (c :: cs) = c :: cs := by
  simp [skipWs, h]

/-- Unpacking of `SimpleChar`. -/
theorem simpleChar_spec (c : Char) (h : SimpleChar c = true) :
    c ≠ '"' ∧ c ≠ '\\' ∧ 32 ≤ c.toNat :=
  of_decide_eq_true h

/-- The serializer escapes nothing in a string of simple characters. -/
theorem escChars_id (cs : List Char) (h : ∀ c ∈ cs, SimpleChar c = true) :
    escChars cs = cs := by
  induction cs with
  | nil => rfl
  | cons c cs ih =>
    obtain ⟨h1, h2, h3⟩ := simpleChar_spec c (h c (List.mem_cons_self c cs))
    rw [escChars.eq_def]
    simp only []
    rw [if_neg h1, if_neg h2, if_neg (by omega : ¬c.toNat < 32),
      ih (fun x hx => h x (List.mem_cons_of_mem c hx))]

/-- The string-body parser consumes simple characters up to the closing
quote. -/
theorem parseStringBody_append (cs : List Char) (rest : List Char)
    (h : ∀ c ∈ cs, SimpleChar c = true) :
    parseStringBody (cs ++ '"' :: rest) = some (cs, rest) := by
  induction cs with
  | nil =>
    show parseStringBody ('"' :: rest) = some ([], rest)
    rw [parseStringBody.eq_def]
    simp only []
    rw [if_pos trivial]
  | cons c cs ih =>
    obtain ⟨h1, h2, _⟩ := simpleChar_spec c (h c (List.mem_cons_self c cs))
    show parseStringBody (c :: (cs ++ '"' :: rest)) = some (c :: cs, rest)
    rw [parseStringBody.eq_def]
    simp only []
    rw [if_neg h1, if_neg h2, ih (fun x hx => h x (List.mem_cons_of_mem c hx))]

/-- Quoted strings concatenate as a quote-headed list. -/
theorem quoteChars_append (s : String) (tail : List Char) :
    quoteChars s.data ++ tail = '"' :: (escChars s.data ++ ('"' :: tail)) := by
  simp [quoteChars]

/-- A simple string's characters all satisfy `SimpleChar`. -/
theorem simpleStr_chars (s : String) (h : SimpleStr s = true) :
    ∀ c ∈ s.data, SimpleChar c = true :=
  List.all_eq_true.mp h

/-- The value parser consumes one serialized simple string. -/
theorem parseVal_string (fuel : Nat) (s : String) (tail : List Char)
    (h : SimpleStr s = true) :
    parseVal (fuel + 1) (quoteChars s.data ++ tail) = some (Json.str s, tail) := by
  have hsimple := simpleStr_chars s h
  rw [quoteChars_append, escChars_id s.data hsimple]
  rw [parseVal.eq_def]
  simp only []
  rw [skipWs_cons_not _ _ (by decide)]
  simp only []
  rw [if_pos trivial, parseStringBody_append s.data tail hsimple]

/-- Element lists of serialized simple strings parse back to themselves,
given fuel at least the element count plus one. -/
theorem parseElems_strings : ∀ (l : List String) (x : String) (fuel : Nat) (rest : List Char),
    (∀ s ∈ x :: l, SimpleStr s = true) → (x :: l).length + 1 ≤ fuel →
    parseElems fuel (stringifyArr ((x :: l).map Json.str) ++ ']' :: rest) =
      some ((x :: l).map Json.str, rest) := by
  intro l
  induction l with
  | nil =>
    intro x fuel rest hsim hf
    match fuel, hf with
    | f + 2, _ =>
      show parseElems (f + 2) (stringifyArr [Json.str x] ++ ']' :: rest) = some ([Json.str x], rest)
      have hx : SimpleStr x = true := hsim x (List.mem_cons_self x [])
      rw [show stringifyArr [Json.str x] = quoteChars x.data from rfl]
      rw [parseElems.eq_def]
      simp only []
      rw [parseVal_string f x (']' :: rest) hx]
      simp only []
      rw [skipWs_cons_not _ _ (by decide)]
      simp only []
      rw [if_neg (by decide : ¬(']' : Char) = ','), if_pos trivial]
  | cons y ys ih =>
    intro x fuel rest hsim hf
    match fuel, hf with
    | f + 2, hf =>
      have hx : SimpleStr x = true := hsim x (List.mem_cons_self x (y :: ys))
      have hrest : ∀ s ∈ y :: ys, SimpleStr s = true :=
        fun s hs => hsim s (List.mem_cons_of_mem x hs)
      have harr : stringifyArr ((x :: y :: ys).map Json.str) ++ ']' :: rest =
          quoteChars x.data ++
            (',' :: (stringifyArr ((y :: ys).map Json.str) ++ ']' :: rest)) := by
        show (quoteChars x.data ++ ',' :: stringifyArr ((y :: ys).map Json.str)) ++
            ']' :: rest = _
        simp [List.append_assoc]
      rw [harr]
      rw [parseElems.eq_def]
      simp only []
      rw [parseVal_string f x
        (',' :: (stringifyArr ((y :: ys).map Json.str) ++ ']' :: rest)) hx]
      simp only []
      rw [skipWs_cons_not _ _ (by decide)]
      simp only []
      rw [if_pos trivial]
      rw [ih y (f + 1) rest hrest (by simp only [List.length_cons] at hf ⊢; omega)]
      rfl

/-- Lower bound relating element count and serialized length. -/
theorem stringifyArr_length_ge : ∀ l : List String,
    l.length ≤ (stringifyArr (l.map Json.str)).length + 1 := by
  intro l
  induction l with
  | nil => simp
  | cons x xs ih =>
    cases xs with
    | nil => simp
    | cons y ys =>
      show (x :: y :: ys).length ≤
        (quoteChars x.data ++ ',' :: stringifyArr ((y ::ys).map Json.str)).length + 1
      simp only [List.length_append, List.length_cons] at *
      omega

/-- A serialized record is never a headless string. -/
theorem encList_data (l : List String) :
    (encList l).data = '[' :: (stringifyArr (l.map Json.str) ++ [']']) := rfl

/-- The serialized record parses back to the array of its identifiers. -/
theorem jsonParse_encList (l : List String) (h : ∀ s ∈ l, SimpleStr s = true) :
    jsonParse (encList l) = some (Json.arr (l.map Json.str)) := by
  unfold jsonParse
  rw [encList_data l]
  cases l with
  | nil => rfl
  | cons x xs =>
    rw [parseVal.eq_def]
    simp only [List.length_cons]
    rw [skipWs_cons_not _ _ (by decide)]
    simp only []
    rw [if_neg (by decide : ¬('[' : Char) = '"'), if_pos trivial]
    obtain ⟨t, ht⟩ : ∃ t, stringifyArr ((x :: xs).map Json.str) = '"' :: t := by
      cases xs with
      | nil => exact ⟨escChars x.data ++ ['"'], rfl⟩
      | cons y ys =>
        refine ⟨escChars x.data ++ ('"' :: (',' :: stringifyArr ((y :: ys).map Json.str))), ?_⟩
        show (quoteChars x.data) ++ ',' :: stringifyArr ((y :: ys).map Json.str) = _
        simp [quoteChars]
    rw [ht]
    rw [show ('"' :: t) ++ [']'] = '"' :: (t ++ [']']) from rfl]
    rw [skipWs_cons_not _ _ (by decide)]
    simp only []
    rw [if_neg (by decide : ¬('"' : Char) = ']')]
    rw [show ('"' : Char) :: (t ++ [']']) = ('"' :: t) ++ ']' :: [] from by simp]
    rw [← ht]
    rw [parseElems_strings xs x
      ((stringifyArr ((x :: xs).map Json.str) ++ [']']).length + 1) [] h
      (by
        have := stringifyArr_length_ge (x :: xs)
        simp only [List.length_cons, List.length_append] at *
        omega)]
    rfl

/-- Membership of a string value in a mapped set is string membership. -/
theorem setMem_map_str (l : List String) (s : String) :
    setMem (l.map Json.str) (Json.str s) = decide (s ∈ l) := by
  induction l with
  | nil => rfl
  | cons x xs ih =>
    show (sameValueZero (Json.str x) (Json.str s) || setMem (xs.map Json.str) (Json.str s)) =
      decide (s ∈ x :: xs)
    rw [ih]
    show (decide (x = s) || decide (s ∈ xs)) = decide (s ∈ x :: xs)
    by_cases h : x = s
    · subst h
      simp
    · have h2 : ¬s = x := fun hc => h hc.symm
      simp [h, h2, List.mem_cons]

/-- Folding `setAdd` over distinct fresh strings appends them all. -/
theorem foldl_setAdd_map_str : ∀ (l acc : List String), (acc ++ l).Nodup →
    List.foldl setAdd (acc.map Json.str) (l.map Json.str) = (acc ++ l).map Json.str := by
  intro l
  induction l with
  | nil => intro acc _; simp
  | cons x xs ih =>
    intro acc h
    have hx : x ∉ acc := by
      intro hc
      exact (List.nodup_append.mp h).2.2 hc (List.mem_cons_self x xs)
    show List.foldl setAdd (setAdd (acc.map Json.str) (Json.str x)) (xs.map Json.str) = _
    have hadd : setAdd (acc.map Json.str) (Json.str x) = (acc ++ [x]).map Json.str := by
      unfold setAdd
      rw [setMem_map_str]
      simp [hx]
    rw [hadd, ih (acc ++ [x]) (by simpa using h)]
    simp

/-- `new Set` on an array of distinct strings returns them in order. -/
theorem newSetOfJson_map_str (l : List String) (hn : l.Nodup) :
    newSetOfJson (Json.arr (l.map Json.str)) = some (l.map Json.str) := by
  show some (List.foldl setAdd [] (l.map Json.str)) = some (l.map Json.str)
  rw [show ([] : List Json) = ([] : List String).map Json.str from rfl,
    foldl_setAdd_map_str l [] (by simpa using hn)]
  simp

/-- The serialized record is never the empty string. -/
theorem encList_ne_empty (l : List String) : ¬encList l = "" := by
  intro h
  have hd := congrArg String.data h
  rw [encList_data l] at hd
  exact List.noConfusion hd

/-- Loading a serialized record of distinct simple identifiers restores
exactly those identifiers. -/
theorem loadCompleted_encList (l : List String) (hs : ∀ s ∈ l, SimpleStr s = true)
    (hn : l.Nodup) :
    loadCompleted (some (encList l)) = Except.ok (l.map Json.str) := by
  unfold loadCompleted
  simp only []
  rw [if_neg (encList_ne_empty l), jsonParse_encList l hs]
  simp only []
  rw [newSetOfJson_map_str l hn]

/-- Deleting a string from a mapped set filters it out. -/
theorem setDelete_map_str (l : List String) (s : String) :
    setDelete (l.map Json.str) (Json.str s) =
      (l.filter (fun x => decide (x ≠ s))).map Json.str := by
  induction l with
  | nil => rfl
  | cons x xs ih =>
    show List.filter _ (Json.str x :: xs.map Json.str) = _
    rw [List.filter_cons]
    by_cases h : x = s
    · subst h
      simpa [sameValueZero, List.filter_cons] using ih
    · simpa [sameValueZero, h, List.filter_cons] using ih

/-- Adding an absent string appends it. -/
theorem setAdd_map_str_not_mem (l : List String) (s : String) (h : s ∉ l) :
    setAdd (l.map Json.str) (Json.str s) = (l ++ [s]).map Json.str := by
  unfold setAdd
  rw [setMem_map_str]
  simp [h]

/-- Adding a present string is a no-op. -/
theorem setAdd_map_str_mem (l : List String) (s : String) (h : s ∈ l) :
    setAdd (l.map Json.str) (Json.str s) = l.map Json.str := by
  unfold setAdd
  rw [setMem_map_str]
  simp [h]

/-- The toggle branch on a flag equal to actual membership is the pure
string-level toggle. -/
theorem toggleSet_map_str (l : List String) (s : String) :
    toggleSet (l.map Json.str) (decide (s ∈ l)) s = (toggleList l s).map Json.str := by
  unfold toggleSet toggleList
  by_cases h : s ∈ l
  · rw [decide_eq_true h, if_pos rfl, if_pos h, setDelete_map_str]
  · rw [decide_eq_false h, if_neg (by simp), if_neg h, setAdd_map_str_not_mem l s h]

/-- One in-application toggle against a serialized record of distinct simple
identifiers performs the pure string-level toggle. -/
theorem toggleStep_encList (l : List String) (s : String)
    (hs : ∀ x ∈ l, SimpleStr x = true) (hn : l.Nodup) :
    toggleStep (some (encList l)) s = Except.ok (encList (toggleList l s)) := by
  unfold toggleStep
  rw [loadCompleted_encList l hs hn]
  simp only []
  rw [show setHas (l.map Json.str) (Json.str s) = decide (s ∈ l) from setMem_map_str l s]
  unfold toggleCompleted
  rw [loadCompleted_encList l hs hn]
  simp only []
  rw [toggleSet_map_str]
  rfl

/-- The pure toggle keeps identifiers simple. -/
theorem toggleList_simple (l : List String) (s : String)
    (hs : ∀ x ∈ l, SimpleStr x = true) (hss : SimpleStr s = true) :
    ∀ x ∈ toggleList l s, SimpleStr x = true := by
  intro x hx
  unfold toggleList at hx
  by_cases h : s ∈ l
  · rw [if_pos h] at hx
    exact hs x (List.mem_of_mem_filter hx)
  · rw [if_neg h] at hx
    rcases List.mem_append.mp hx with h1 | h2
    · exact hs x h1
    · have : x = s := by simpa using h2
      exact this ▸ hss

/-- The pure toggle keeps identifiers distinct. -/
theorem toggleList_nodup (l : List String) (s : String) (hn : l.Nodup) :
    (toggleList l s).Nodup := by
  unfold toggleList
  by_cases h : s ∈ l
  · rw [if_pos h]
    exact hn.filter _
  · rw [if_neg h]
    rw [List.nodup_append]
    refine ⟨hn, List.nodup_singleton s, ?_⟩
    intro x hx hx2
    have : x = s := by simpa using hx2
    exact h (this ▸ hx)

/-- Running a toggle sequence against a serialized record folds the pure
toggle over it. -/
theorem runToggles_encList : ∀ (seq l : List String),
    (∀ x ∈ l, SimpleStr x = true) → l.Nodup → (∀ x ∈ seq, SimpleStr x = true) →
    runToggles seq (some (encList l)) =
      Except.ok (some (encList (List.foldl toggleList l seq))) := by
  intro seq
  induction seq with
  | nil => intro l _ _ _; rfl
  | cons s rest ih =>
    intro l hl hn hseq
    show (match toggleStep (some (encList l)) s with
      | Except.error e => Except.error e
      | Except.ok s' => runToggles rest (some s')) = _
    rw [toggleStep_encList l s hl hn]
    simp only []
    rw [ih (toggleList l s)
      (toggleList_simple l s hl (hseq s (List.mem_cons_self s rest)))
      (toggleList_nodup l s hn)
      (fun x hx => hseq x (List.mem_cons_of_mem s hx))]
    rfl

/-- Toggling an identifier flips its own membership. -/
theorem mem_toggleList_self (l : List String) (s : String) :
    s ∈ toggleList l s ↔ s ∉ l := by
  unfold toggleList
  by_cases h : s ∈ l
  · simp [h, List.mem_filter]
  · simp [h]

/-- Toggling one identifier leaves other memberships alone. -/
theorem mem_toggleList_ne (l : List String) (s x : String) (hx : x ≠ s) :
    x ∈ toggleList l s ↔ x ∈ l := by
  unfold toggleList
  by_cases h : s ∈ l
  · simp [h, List.mem_filter, hx]
  · simp [h, hx]

/-- Membership after a fold of toggles is initial membership xor an odd
toggle count. -/
theorem mem_foldl_toggleList : ∀ (seq l : List String) (x : String),
    x ∈ List.foldl toggleList l seq ↔ Xor' (x ∈ l) (Odd (List.count x seq)) := by
  intro seq
  induction seq with
  | nil =>
    intro l x
    simp [Xor', Nat.odd_iff]
  | cons s rest ih =>
    intro l x
    rw [List.foldl_cons, ih (toggleList l s) x]
    by_cases hx : x = s
    · subst hx
      rw [List.count_cons_self, mem_toggleList_self, Nat.odd_add_one]
      by_cases hm : x ∈ l <;> by_cases ho : Odd (List.count x rest) <;>
        simp [Xor', hm, ho]
    · rw [List.count_cons_of_ne hx, mem_toggleList_ne l s x hx]

/-- The fold of toggles keeps identifiers simple. -/
theorem foldl_toggleList_simple : ∀ (seq l : List String),
    (∀ x ∈ l, SimpleStr x = true) → (∀ x ∈ seq, SimpleStr x = true) →
    ∀ x ∈ List.foldl toggleList l seq, SimpleStr x = true := by
  intro seq
  induction seq with
  | nil => intro l hl _; simpa using hl
  | cons s rest ih =>
    intro l hl hseq
    rw [List.foldl_cons]
    exact ih (toggleList l s)
      (toggleList_simple l s hl (hseq s (List.mem_cons_self s rest)))
      (fun x hx => hseq x (List.mem_cons_of_mem s hx))

/-- The fold of toggles keeps identifiers distinct. -/
theorem foldl_toggleList_nodup : ∀ (seq l : List String),
    l.Nodup → (List.foldl toggleList l seq).Nodup := by
  intro seq
  induction seq with
  | nil => intro l hn; simpa using hn
  | cons s rest ih =>
    intro l hn
    rw [List.foldl_cons]
    exact ih (toggleList l s) (toggleList_nodup l s hn)

/-- The catalog's chapter identifiers are all simple strings. -/
theorem catalog_ids_simple : ∀ x ∈ getAllChapters.map Chapter.id, SimpleStr x = true := by
  decide

/-! ## Claim C5 — toggle sequences, restart, and odd-count parity -/

/-- Claim C5: for any finite sequence of toggles of catalog identifiers
starting from an empty record, the run succeeds, and loading the record back
from the durably stored string after a simulated restart yields exactly the
set of identifiers toggled an odd number of times. -/
theorem c5_toggle_parity_roundtrip :
    ∀ seq : List String,
      (∀ id ∈ seq, id ∈ getAllChapters.map Chapter.id) →
      ∃ (saved : Option String) (record : List Json),
        runToggles seq none = Except.ok saved ∧
        loadCompleted saved = Except.ok record ∧
        ∀ id : String, (setHas record (Json.str id) = true ↔ Odd (List.count id seq)) := by
  intro seq hseq
  have hsimple : ∀ id ∈ seq, SimpleStr id = true :=
    fun id hid => catalog_ids_simple id (hseq id hid)
  cases seq with
  | nil =>
    refine ⟨none, [], rfl, rfl, ?_⟩
    intro id
    simp [setHas, setMem, Nat.odd_iff]
  | cons s rest =>
    have hs0 : SimpleStr s = true := hsimple s (List.mem_cons_self s rest)
    have hrest : ∀ x ∈ rest, SimpleStr x = true :=
      fun x hx => hsimple x (List.mem_cons_of_mem s hx)
    have hsingle : ∀ x ∈ [s], SimpleStr x = true := by
      intro x hx
      have : x = s := by simpa using hx
      exact this ▸ hs0
    have hstep : toggleStep none s = Except.ok (encList [s]) := rfl
    have hrun : runToggles (s :: rest) none =
        Except.ok (some (encList (List.foldl toggleList [s] rest))) := by
      show (match toggleStep none s with
        | Except.error e => Except.error e
        | Except.ok s' => runToggles rest (some s')) = _
      rw [hstep]
      simp only []
      exact runToggles_encList rest [s] hsingle (List.nodup_singleton s) hrest
    have hfs : ∀ x ∈ List.foldl toggleList [s] rest, SimpleStr x = true :=
      foldl_toggleList_simple rest [s] hsingle hrest
    have hfn : (List.foldl toggleList [s] rest).Nodup :=
      foldl_toggleList_nodup rest [s] (List.nodup_singleton s)
    refine ⟨some (encList (List.foldl toggleList [s] rest)),
      (List.foldl toggleList [s] rest).map Json.str, hrun,
      loadCompleted_encList _ hfs hfn, ?_⟩
    intro id
    rw [show setHas ((List.foldl toggleList [s] rest).map Json.str) (Json.str id) =
      decide (id ∈ List.foldl toggleList [s] rest) from setMem_map_str _ id]
    rw [decide_eq_true_eq]
    rw [show List.foldl toggleList [s] rest = List.foldl toggleList (toggleList [] s) rest
      from rfl]
    have hmf : id ∈ List.foldl toggleList (toggleList [] s) rest ↔
        Xor' (id ∈ ([] : List String)) (Odd (List.count id (s :: rest))) :=
      mem_foldl_toggleList (s :: rest) [] id
    rw [hmf]
    simp [Xor']

/-- Claim C5 witness at a concrete toggle sequence. -/
theorem c5_toggle_parity_roundtrip_witness :
    (∀ id ∈ ["ch03", "ch05", "ch03"], id ∈ getAllChapters.map Chapter.id) ∧
    ∃ (saved : Option String) (record : List Json),
      runToggles ["ch03", "ch05", "ch03"] none = Except.ok saved ∧
      loadCompleted saved = Except.ok record ∧
      ∀ id : String,
        (setHas record (Json.str id) = true ↔ Odd (List.count id ["ch03", "ch05", "ch03"])) :=
  ⟨by decide, c5_toggle_parity_roundtrip ["ch03", "ch05", "ch03"] (by decide)⟩

/-! ## Claim C6 — cross-view completion propagation -/

/-- Claim C6: in the two-view model over one durable store, when view A —
holding cached flag `false` for `ch03` — toggles `ch03` against any stored
record of distinct simple identifiers, the toggle makes it complete, and
view B, woken by the store's change notification, reloads the record and
reports `isComplete("ch03")` true with no user action of its own. -/
theorem c6_cross_view_sync :
    ∀ (l : List String) (b : List Json) (saved : Option String),
      (∀ s ∈ l, SimpleStr s = true) → l.Nodup →
      loadCompleted saved = Except.ok (l.map Json.str) →
      ∃ st' : TwoViewState,
        toggleInViewA { store := saved, viewB := b } false "ch03" = Except.ok st' ∧
        isCompleteInB st' "ch03" = true := by
  intro l b saved hs hn hload
  have hch : SimpleStr "ch03" = true := by decide
  by_cases hmem : "ch03" ∈ l
  · have hadd : toggleSet (l.map Json.str) false "ch03" = l.map Json.str :=
      setAdd_map_str_mem l _ hmem
    refine ⟨{ store := some (encList l), viewB := l.map Json.str }, ?_, ?_⟩
    · unfold toggleInViewA toggleCompleted
      rw [hload]
      simp only []
      rw [hadd]
      rw [show jsonStringify (Json.arr (l.map Json.str)) = encList l from rfl]
      rw [loadCompleted_encList l hs hn]
    · show setHas (l.map Json.str) (Json.str "ch03") = true
      rw [show setHas (l.map Json.str) (Json.str "ch03") = decide ("ch03" ∈ l) from
        setMem_map_str l _]
      simpa using hmem
  · have hadd : toggleSet (l.map Json.str) false "ch03" = (l ++ ["ch03"]).map Json.str :=
      setAdd_map_str_not_mem l _ hmem
    have hs' : ∀ x ∈ l ++ ["ch03"], SimpleStr x = true := by
      intro x hx
      rcases List.mem_append.mp hx with h1 | h2
      · exact hs x h1
      · have hx2 : x = "ch03" := by simpa using h2
        exact hx2 ▸ hch
    have hn' : (l ++ ["ch03"]).Nodup := by
      rw [List.nodup_append]
      refine ⟨hn, List.nodup_singleton _, ?_⟩
      intro x hx hx2
      have hx3 : x = "ch03" := by simpa using hx2
      exact hmem (hx3 ▸ hx)
    refine ⟨{ store := some (encList (l ++ ["ch03"])),
              viewB := (l ++ ["ch03"]).map Json.str }, ?_, ?_⟩
    · unfold toggleInViewA toggleCompleted
      rw [hload]
      simp only []
      rw [hadd]
      rw [show jsonStringify (Json.arr ((l ++ ["ch03"]).map Json.str)) =
        encList (l ++ ["ch03"]) from rfl]
      rw [loadCompleted_encList _ hs' hn']
    · show setHas ((l ++ ["ch03"]).map Json.str) (Json.str "ch03") = true
      rw [show setHas ((l ++ ["ch03"]).map Json.str) (Json.str "ch03") =
        decide ("ch03" ∈ l ++ ["ch03"]) from setMem_map_str _ _]
      simp

/-- Claim C6 witness at the empty store. -/
theorem c6_cross_view_sync_witness :
    ∃ st' : TwoViewState,
      toggleInViewA { store := none, viewB := [] } false "ch03" = Except.ok st' ∧
      isCompleteInB st' "ch03" = true :=
  c6_cross_view_sync [] [] none (by intro s hs; cases hs) List.nodup_nil rfl

end ReactOnSteroids
